import Mathlib

/-!
Verification of the inter-pane communication core of the harbor CLI
(`src/index.ts`).  JavaScript strings are modelled as `List Char`; the
relevant functions of the source — `getSessionInfo`, `checkAccess`,
`sendToPane`, `capturePane`, `execInPane` (parley), `validateConfig`,
`readHarborConfig`, and the `context` command's access-icon table — are
translated into executable Lean definitions.  Interactions with the tmux
multiplexer are recorded as explicit `Step` traces; the tmux pane buffer
itself is modelled as a list of lines (an external collaborator of the
core, per the design spec).
-/

set_option maxRecDepth 20000

/-- JavaScript strings are modelled as lists of characters. -/
abbrev Str := List Char

/-- Coerce a Lean string literal to the `List Char` model. -/
def str (s : String) : Str := s.data

/-- The newline character. -/
def nlChar : Char := '\n'

/-- Whitespace predicate used by the model of JavaScript `String.trim`
(space, tab, newline, carriage return, vertical tab, form feed). -/
def wsChar (c : Char) : Bool :=
  c = ' ' || c = '\t' || c = '\n' || c = '\r' || c = Char.ofNat 11 || c = Char.ofNat 12

/-- Model of JavaScript `String.prototype.trim`: strip whitespace from
both ends. -/
def trimChars (s : Str) : Str :=
  ((s.dropWhile wsChar).reverse.dropWhile wsChar).reverse

/-- Boolean string-prefix test (our own, so that all lemmas about it are
proved in this file). -/
def pfx : Str → Str → Bool
  | [], _ => true
  | _ :: _, [] => false
  | a :: as, b :: bs => a = b && pfx as bs

/-- Index of the first occurrence of `pat` in `s` (model of
`String.prototype.indexOf` / leftmost regex match position). -/
def findSub (pat : Str) : Str → Option Nat
  | [] => if pfx pat [] then some 0 else none
  | b :: bs => if pfx pat (b :: bs) then some 0 else (findSub pat bs).map (· + 1)

/-- Substring containment, as in JavaScript `String.prototype.includes`. -/
def includesStr (s pat : Str) : Bool := (findSub pat s).isSome

/-- Model of JavaScript `split('\n')`: split a string into its lines
(`""` splits to `[""]`, a trailing newline yields a trailing `""`). -/
def splitLines : Str → List Str
  | [] => [[]]
  | c :: rest =>
    if c = nlChar then [] :: splitLines rest
    else
      match splitLines rest with
      | [] => [[c]]
      | l :: ls => (c :: l) :: ls

/-- The start marker of one parley call, from `execInPane`:
`<<<HARBOR_START_{markerId}>>>`. -/
def startMarker (tok : Str) : Str := str "<<<HARBOR_START_" ++ tok ++ str ">>>"

/-- The end marker of one parley call, from `execInPane`:
`<<<HARBOR_END_{markerId}>>>`. -/
def endMarker (tok : Str) : Str := str "<<<HARBOR_END_" ++ tok ++ str ">>>"

/-- The echo command injected for a marker: `echo '<marker>'`. -/
def echoCmd (m : Str) : Str := str "echo '" ++ m ++ str "'"

/-- The marker token of `execInPane`: `randomUUID().slice(0, 8)`. -/
def mkMarkerId (uuid : Str) : Str := uuid.take 8

/-- Single-quote escaping of the injected command in `execInPane`:
`command.replace(/'/g, "'\\''")`. -/
def escapeSingleQuotes (cmd : Str) : Str :=
  cmd.flatMap (fun c => if c = '\'' then str "'\\''" else [c])

/-- Double-quote escaping of the injected command in `sendToPane`:
`command.replace(/"/g, '\\"')`. -/
def escapeDoubleQuotes (cmd : Str) : Str :=
  cmd.flatMap (fun c => if c = '"' then str "\\\"" else [c])

/-- Model of the leftmost match of the `execInPane` extraction regex
`startMarker\n([\s\S]*?)endMarker` (markers are regex-escaped in the
source, hence matched literally): the match begins at the first position
where `S ++ "\n"` occurs with an occurrence of `E` after it, and the
lazily captured group extends to the first subsequent occurrence of `E`. -/
def regexFind (S E : Str) : Str → Option Str
  | [] => none
  | c :: rest =>
    if pfx (S ++ [nlChar]) (c :: rest) then
      let tail := (c :: rest).drop (S.length + 1)
      match findSub E tail with
      | some j => some (tail.take j)
      | none => regexFind S E rest
    else regexFind S E rest

/-- The per-line filter of `execInPane`: keep a line iff its trimmed form
is nonempty and contains neither echoed marker command. -/
def keepLine (S E : Str) (line : Str) : Bool :=
  let t := trimChars line
  !t.isEmpty && !includesStr t (echoCmd S) && !includesStr t (echoCmd E)

/-- Post-processing of the captured region in `execInPane`: split into
lines, filter, join with newline, trim. -/
def cleanRegion (S E raw : Str) : Str :=
  trimChars (List.intercalate [nlChar] ((splitLines raw).filter (keepLine S E)))

/-- The sentinel of `execInPane`: JavaScript `x || '(no output)'`. -/
def orNoOutput (s : Str) : Str := if s = [] then str "(no output)" else s

/-- The full result computation of `execInPane` on the captured pane
text: regex extraction with cleanup on a match, raw trimmed capture as
fallback, empty results replaced by the sentinel. -/
def execExtract (S E : Str) (stdout : Str) : Str :=
  match regexFind S E stdout with
  | some raw => orNoOutput (cleanRegion S E raw)
  | none => orNoOutput (trimChars stdout)

/-- The extraction recipe in the words of the specification (claim C3):
the substring strictly between the first occurrence of the start marker
and the first subsequent occurrence of the end marker. -/
def specExtractRegion (S E stdout : Str) : Option Str :=
  match findSub S stdout with
  | none => none
  | some i =>
    match findSub E (stdout.drop (i + S.length)) with
    | none => none
    | some j => some ((stdout.drop (i + S.length)).take j)

/-- The parley result as described by claim C3: the spec-recipe region,
cleaned like the code cleans it (split, drop blank and marker-echo
lines, join, trim, sentinel on empty). -/
def specParleyResult (S E stdout : Str) : Option Str :=
  (specExtractRegion S E stdout).map (fun r => orNoOutput (cleanRegion S E r))

/-- One interaction with the tmux multiplexer.  `sendKeys payload enter`
records a `tmux send-keys` invocation whose keystroke argument is
`payload` (the text the source interpolates into the quoted argument of
`send-keys`), with `enter` recording the trailing `Enter` key;
`sleep ms` records an unconditional delay; `capture lines` records a
`tmux capture-pane -p -S -lines` read. -/
inductive Step where
  | sendKeys (payload : Str) (enter : Bool)
  | sleep (ms : Nat)
  | capture (lines : Nat)
deriving DecidableEq

/-- One service entry of the persisted session record
(`SessionServiceInfo` in the source). -/
structure SessionServiceInfo where
  window : Nat
  target : Str
  canAccess : Option (List Str)
deriving DecidableEq

/-- The persisted session record (`SessionInfo` in the source); the JSON
`services` object is modelled as an association list with unique keys. -/
structure SessionInfo where
  session : Str
  socket : Str
  startedAt : Str
  services : List (Str × SessionServiceInfo)
deriving DecidableEq

/-- The state of the session file `.harbor/session.json` as seen by
`getSessionInfo`: missing, present but failing `JSON.parse`, or parsed. -/
inductive SessionFile where
  | missing
  | unparseable
  | parsed (info : SessionInfo)

/-- Model of `getSessionInfo`: `null` when the file does not exist, and
`null` (via the `catch`) when it fails to parse. -/
def getSessionInfo : SessionFile → Option SessionInfo
  | .missing => none
  | .unparseable => none
  | .parsed info => some info

/-- JavaScript object property lookup `session.services[name]` on the
association-list model. -/
def lookupSvc : List (Str × SessionServiceInfo) → Str → Option SessionServiceInfo
  | [], _ => none
  | p :: rest, name => if p.1 = name then some p.2 else lookupSvc rest name

/-- The result record of `checkAccess`. -/
structure AccessResult where
  allowed : Bool
  error : Option Str
deriving DecidableEq

/-- Error message of `checkAccess` when no session is running. -/
def noSessionAccessMsg : Str := str "No harbor session running. Run \"harbor launch\" first."

/-- Error message of `checkAccess` for an unknown target service. -/
def unknownServiceAccessMsg (target : Str) (services : List (Str × SessionServiceInfo)) : Str :=
  str "Unknown service: " ++ target ++ str ". Available services: "
    ++ List.intercalate (str ", ") (services.map (·.1))

/-- Error message of `checkAccess` when the caller lacks access. -/
def deniedMsg (caller target : Str) : Str :=
  str "Service \"" ++ caller ++ str "\" does not have access to \"" ++ target
    ++ str "\". Add \"" ++ target ++ str "\" to canAccess in your harbor config."

/-- Model of `checkAccess` (src/index.ts:1303-1336).  The caller
identity is the ambient `HARBOR_SERVICE` environment value, `none` when
the variable is unset; JavaScript falsiness makes an empty value behave
like an unset one (`if (!callerService)`). -/
def checkAccess (file : SessionFile) (envHarborService : Option Str) (target : Str) :
    AccessResult :=
  match getSessionInfo file with
  | none => ⟨false, some noSessionAccessMsg⟩
  | some session =>
    match lookupSvc session.services target with
    | none => ⟨false, some (unknownServiceAccessMsg target session.services)⟩
    | some _ =>
      match envHarborService with
      | none => ⟨true, none⟩
      | some callerService =>
        if callerService = [] then ⟨true, none⟩
        else
          match lookupSvc session.services callerService with
          | none => ⟨true, none⟩
          | some callerInfo =>
            if target ∈ callerInfo.canAccess.getD [] then ⟨true, none⟩
            else ⟨false, some (deniedMsg callerService target)⟩

/-- Error thrown by the transport primitives when no session is running. -/
def noSessionErr : Str := str "No harbor session running"

/-- Error thrown by the transport primitives for an unknown target. -/
def unknownServiceErr (target : Str) : Str := str "Unknown service: " ++ target

/-- Model of `sendToPane` (src/index.ts:1338-1349): resolve the target
through the session record, then inject the double-quote-escaped command
plus `Enter`.  An `Except.error` result means the function threw before
performing any multiplexer interaction; an `Except.ok` result carries
the complete, ordered list of multiplexer interactions performed. -/
def sendToPane (file : SessionFile) (target command : Str) : Except Str (List Step) :=
  match getSessionInfo file with
  | none => .error noSessionErr
  | some session =>
    match lookupSvc session.services target with
    | none => .error (unknownServiceErr target)
    | some _ => .ok [Step.sendKeys (escapeDoubleQuotes command) true]

/-- Model of `capturePane` (src/index.ts:1351-1364): resolve the target,
then perform one `capture-pane -p -S -lines` read (default 500 lines);
no keystroke injection and no sleeping. -/
def capturePane (file : SessionFile) (target : Str) (lines : Nat := 500) :
    Except Str (List Step) :=
  match getSessionInfo file with
  | none => .error noSessionErr
  | some session =>
    match lookupSvc session.services target with
    | none => .error (unknownServiceErr target)
    | some _ => .ok [Step.capture lines]

/-- The ordered multiplexer interactions of `execInPane`
(src/index.ts:1377-1398), given the marker token: start-marker echo plus
Enter, 100 ms settle; escaped command plus Enter, `timeout` ms dwell;
end-marker echo plus Enter, 200 ms settle; one 500-line capture. -/
def execInPaneTrace (command : Str) (timeout : Nat) (tok : Str) : List Step :=
  [ Step.sendKeys (echoCmd (startMarker tok)) true,
    Step.sleep 100,
    Step.sendKeys (escapeSingleQuotes command) true,
    Step.sleep timeout,
    Step.sendKeys (echoCmd (endMarker tok)) true,
    Step.sleep 200,
    Step.capture 500 ]

/-- Model of `execInPane` (parley, src/index.ts:1366-1422) up to the
capture: resolution errors throw before any multiplexer interaction;
otherwise the interactions are exactly `execInPaneTrace`.  The token is
`mkMarkerId uuid` for the fresh `randomUUID()` value; the default dwell
is 3000 ms.  The subsequent pure computation on the captured text is
`execExtract`. -/
def execInPane (file : SessionFile) (target command : Str) (tok : Str)
    (timeout : Nat := 3000) : Except Str (List Step) :=
  match getSessionInfo file with
  | none => .error noSessionErr
  | some session =>
    match lookupSvc session.services target with
    | none => .error (unknownServiceErr target)
    | some _ => .ok (execInPaneTrace command timeout tok)

/-- Model of the multiplexer's `capture-pane` read, per the design spec:
the last `n` lines of the pane's buffer (all of it when fewer exist). -/
def tmuxCaptureLines (buffer : List Str) (n : Nat) : List Str :=
  buffer.drop (buffer.length - n)

/-- The access-icon column of the `context` command's service table
(src/index.ts:1967-1996): for each service row the icon is `(you)` for
the caller's own row, `✓` when the caller is outside the pane graph or
the row is in the caller's `canAccess` list, and `✗` otherwise. -/
def contextIcon (envHarborService : Option Str) (canAccessList : List Str) (name : Str) : Str :=
  let isCurrent : Bool :=
    match envHarborService with
    | none => false
    | some c => name = c
  let noCaller : Bool :=
    match envHarborService with
    | none => true
    | some c => c = []
  let hasAccess : Bool := noCaller || decide (name ∈ canAccessList) || isCurrent
  if isCurrent then str "(you)" else if hasAccess then str "✓" else str "✗"

/-- The list of access icons of the `context` service table, one per
service row, in registry order. -/
def contextAccessIcons (session : SessionInfo) (envHarborService : Option Str) : List Str :=
  let currentServiceInfo : Option SessionServiceInfo :=
    match envHarborService with
    | none => none
    | some c => if c = [] then none else lookupSvc session.services c
  let canAccessList : List Str := (currentServiceInfo.bind (·.canAccess)).getD []
  session.services.map (fun p => contextIcon envHarborService canAccessList p.1)

/-- The backtick character (POSIX command substitution). -/
def backtickChar : Char := Char.ofNat 96

/-- Characters before which a backslash keeps its special meaning inside
a POSIX double-quoted string. -/
def dqSpecials : List Char := ['$', backtickChar, '"', '\\']

/-- Outcome of handing a piece of text to the shell as the interior of a
double-quoted word, as `sendToPane` does with the escaped command in
`"${escaped}"`. -/
inductive DQResult where
  | literal (s : Str)
  | breaksOut
  | hasExpansion
deriving DecidableEq

/-- Prepend a literal character to a double-quote parse outcome. -/
def DQResult.consLit (c : Char) : DQResult → DQResult
  | .literal s => .literal (c :: s)
  | .breaksOut => .breaksOut
  | .hasExpansion => .hasExpansion

/-- POSIX parsing of the interior of a double-quoted shell word: a
backslash escapes the characters in `dqSpecials` and is otherwise kept
literally; an unescaped `"` terminates the word early (the remaining
text escapes the quotes); `$` and backtick trigger shell expansion.
Backslash-newline line continuation is not modelled (no claim involves a
newline inside a sent command). -/
def dqParse : Str → DQResult
  | [] => .literal []
  | c :: rest =>
    if c = '\\' then
      match rest with
      | [] => .literal ['\\']
      | c2 :: rest2 =>
        if c2 ∈ dqSpecials then (dqParse rest2).consLit c2
        else ((dqParse rest2).consLit c2).consLit '\\'
    else if c = '"' then .breaksOut
    else if c = '$' then .hasExpansion
    else if c = backtickChar then .hasExpansion
    else (dqParse rest).consLit c

/-- A before/after script entry of the configuration. -/
structure Script where
  path : Str
  command : Str
deriving DecidableEq

/-- A configured service (`DevService` in the source); only the fields
`validateConfig` inspects are modelled. -/
structure DevService where
  name : Str
  path : Str
  canAccess : Option (List Str)
deriving DecidableEq

/-- The harbor configuration (`Config` in the source). -/
structure Config where
  services : List DevService
  before : Option (List Script)
  after : Option (List Script)
deriving DecidableEq

/-- The canAccess validation loop of `validateConfig`
(src/index.ts:2090-2099): each referenced name must be a configured
service name and must differ from the owning service's name. -/
def validateCanAccessList (names : List Str) (sname : Str) : List Str → Option Str
  | [] => none
  | t :: rest =>
    if t ∉ names then
      some (str "Service \"" ++ sname ++ str "\" has canAccess reference to unknown service \"" ++ t ++ str "\"")
    else if t = sname then
      some (str "Service \"" ++ sname ++ str "\" cannot have canAccess reference to itself")
    else validateCanAccessList names sname rest

/-- Per-service validation of `validateConfig` (src/index.ts:2081-2100):
required name and path (JavaScript falsiness: the empty string fails),
then the canAccess references when the list is present. -/
def validateService (names : List Str) (s : DevService) : Option Str :=
  if s.name = [] then some (str "Service name is required")
  else if s.path = [] then some (str "Service path is required")
  else
    match s.canAccess with
    | none => none
    | some ca => validateCanAccessList names s.name ca

/-- First error produced by `f` over a list, modelling the early
`return` inside the source's `for` loops. -/
def firstSome (f : α → Option Str) : List α → Option Str
  | [] => none
  | a :: rest =>
    match f a with
    | some e => some e
    | none => firstSome f rest

/-- Validation of one before/after script list
(src/index.ts:2107-2134): each script needs a path and a command. -/
def validateScriptList (kind : Str) (i : Nat) : List Script → Option Str
  | [] => none
  | s :: rest =>
    if s.path = [] then some (kind ++ str " script " ++ str (Nat.repr i) ++ str " must have a path")
    else if s.command = [] then some (kind ++ str " script " ++ str (Nat.repr i) ++ str " must have a command")
    else validateScriptList kind (i + 1) rest

/-- Model of `validateConfig` (src/index.ts:2074-2137): `none` means the
configuration is accepted, `some e` is the first validation error.  The
dynamic `Array.isArray` guards are unrepresentable in the typed model. -/
def validateConfig (config : Config) : Option Str :=
  let names := config.services.map (·.name)
  match firstSome (validateService names) config.services with
  | some e => some e
  | none =>
    match (match config.before with
           | none => none
           | some bs => validateScriptList (str "Before") 0 bs) with
    | some e => some e
    | none =>
      match config.after with
      | none => none
      | some afters => validateScriptList (str "After") 0 afters

/-- Model of `readHarborConfig` (src/index.ts:2272-2308): prefer a
parsed `harbor.json` (validated, validation errors thrown), else the
`harbor` field of `package.json` (validated likewise), else fail.  The
inputs are the parsed configurations when the respective file/field
exists. -/
def readHarborConfig (harborJson : Option Config) (packageHarbor : Option Config) :
    Except Str Config :=
  match harborJson with
  | some c =>
    match validateConfig c with
    | some e => .error (str "Invalid configuration in harbor.json: " ++ e)
    | none => .ok c
  | none =>
    match packageHarbor with
    | some c =>
      match validateConfig c with
      | some e => .error (str "Invalid configuration in package.json harbor field: " ++ e)
      | none => .ok c
    | none => .error (str "No harbor configuration found in harbor.json or package.json")

/-- A deterministic echo-style pane: feeding it one input line appends
the terminal echo of that line followed by the program's response
lines. -/
def paneFeed (resp : Str → List Str) (buf : List Str) (input : Str) : List Str :=
  buf ++ input :: resp input

/-- Response function of a shell-like echo pane used for the parley
round-trip scenario: `echo '<marker>'` prints the marker (shell
unquoting), any other `echo ` command prints its argument verbatim, and
other input produces no output. -/
def shellEchoResp (tok : Str) (l : Str) : List Str :=
  if l = echoCmd (startMarker tok) then [startMarker tok]
  else if l = echoCmd (endMarker tok) then [endMarker tok]
  else if pfx (str "echo ") l then [l.drop 5]
  else []

/-- The pane buffer after the three parley injections of `execInPaneTrace`
arrive at an echo-style pane with scrollback `scroll`: start-marker echo,
the caller's command (delivered unescaped, since the single-quote
escaping is exactly undone by the shell's single-quote parsing), and the
end-marker echo. -/
def runEchoPane (tok : Str) (scroll : List Str) (command : Str) : List Str :=
  paneFeed (shellEchoResp tok)
    (paneFeed (shellEchoResp tok)
      (paneFeed (shellEchoResp tok) scroll (echoCmd (startMarker tok)))
      command)
    (echoCmd (endMarker tok))

/-- The text `execInPane` captures from the echo pane: the last 500
buffer lines joined with newlines. -/
def echoPaneCapture (tok : Str) (scroll : List Str) (command : Str) : Str :=
  List.intercalate [nlChar] (tmuxCaptureLines (runEchoPane tok scroll command) 500)

/-- The session registry of the concrete scenario in the specification:
`repl` with an empty `canAccess`, `web` allowed to access `repl`. -/
def exampleSession : SessionInfo :=
  ⟨str "dev", str "harbor-dev", str "2024-01-01",
   [(str "repl", ⟨1, str "dev:1", some []⟩),
    (str "web", ⟨2, str "dev:2", some [str "repl"]⟩)]⟩

/-- A loaded session registry containing a service whose key is the
empty string. -/
def c1CexSession : SessionInfo :=
  ⟨str "dev", str "harbor-dev", str "2024-01-01",
   [([], ⟨1, str "dev:1", some []⟩),
    (str "repl", ⟨2, str "dev:2", some []⟩)]⟩

/-- A configuration mirroring the concrete scenario: `web` may access
`repl`, `repl` accesses nothing. -/
def exampleConfig : Config :=
  ⟨[⟨str "repl", str "./repl", some []⟩,
    ⟨str "web", str "./web", some [str "repl"]⟩], none, none⟩

/-! Helper lemmas about the string toolkit. -/

theorem pfx_append_self (p t : Str) : pfx p (p ++ t) = true := by
  induction p with
  | nil => rfl
  | cons a as ih => simp [pfx, ih]

theorem pfx_exists {p s : Str} (h : pfx p s = true) : ∃ t, s = p ++ t := by
  induction p generalizing s with
  | nil => exact ⟨s, rfl⟩
  | cons a as ih =>
    cases s with
    | nil => simp [pfx] at h
    | cons b bs =>
      simp only [pfx, Bool.and_eq_true, decide_eq_true_eq] at h
      obtain ⟨rfl, h2⟩ := h
      obtain ⟨t, rfl⟩ := ih h2
      exact ⟨t, rfl⟩

theorem pfx_mono {p q s : Str} (h : pfx (p ++ q) s = true) : pfx p s = true := by
  obtain ⟨t, rfl⟩ := pfx_exists h
  rw [List.append_assoc]
  exact pfx_append_self ..

theorem findSub_spec {pat s : Str} {i : Nat} (h : findSub pat s = some i) :
    pfx pat (s.drop i) = true ∧ ∀ k, k < i → pfx pat (s.drop k) = false := by
  induction s generalizing i with
  | nil =>
    unfold findSub at h
    split at h
    · rename_i hp
      obtain rfl : (0 : Nat) = i := by simpa using h
      exact ⟨by simpa using hp, fun k hk => absurd hk (by omega)⟩
    · exact absurd h (by simp)
  | cons b bs ih =>
    unfold findSub at h
    split at h
    · rename_i hp
      obtain rfl : (0 : Nat) = i := by simpa using h
      exact ⟨by simpa using hp, fun k hk => absurd hk (by omega)⟩
    · rename_i hp
      rw [Option.map_eq_some'] at h
      obtain ⟨i', hi', rfl⟩ := h
      obtain ⟨h1, h2⟩ := ih hi'
      refine ⟨by simpa using h1, fun k hk => ?_⟩
      cases k with
      | zero => simpa using eq_false_of_ne_true hp
      | succ k' => simpa using h2 k' (by omega)

theorem findSub_eq_some {pat s : Str} {i : Nat}
    (h1 : pfx pat (s.drop i) = true)
    (h2 : ∀ k, k < i → pfx pat (s.drop k) = false) :
    findSub pat s = some i := by
  induction s generalizing i with
  | nil =>
    cases i with
    | zero => simp_all [findSub]
    | succ n =>
      have ht : pfx pat [] = true := by simpa using h1
      have hf : pfx pat [] = false := by simpa using h2 0 (Nat.succ_pos n)
      simp [ht] at hf
  | cons b bs ih =>
    cases i with
    | zero =>
      simp only [List.drop_zero] at h1
      simp [findSub, h1]
    | succ n =>
      have hf : pfx pat (b :: bs) = false := by simpa using h2 0 (Nat.succ_pos n)
      have hrec : findSub pat bs = some n := by
        refine ih (by simpa using h1) (fun k hk => ?_)
        simpa using h2 (k + 1) (by omega)
      simp [findSub, hf, hrec]

theorem pfx_marker_nl_nil_false (S : Str) : pfx (S ++ [nlChar]) [] = false := by
  cases S <;> rfl

theorem regexFind_eq {S E s : Str} {i j : Nat}
    (h1 : pfx (S ++ [nlChar]) (s.drop i) = true)
    (h2 : ∀ k, k < i → pfx (S ++ [nlChar]) (s.drop k) = false)
    (h3 : findSub E (s.drop (i + S.length + 1)) = some j) :
    regexFind S E s = some ((s.drop (i + S.length + 1)).take j) := by
  induction s generalizing i with
  | nil =>
    rw [List.drop_nil] at h1
    exact absurd h1 (by simp [pfx_marker_nl_nil_false])
  | cons b bs ih =>
    cases i with
    | zero =>
      rw [List.drop_zero] at h1
      rw [Nat.zero_add] at h3 ⊢
      unfold regexFind
      rw [if_pos h1]
      simp only [h3]
    | succ n =>
      have hf : pfx (S ++ [nlChar]) (b :: bs) = false := by
        simpa using h2 0 (Nat.succ_pos n)
      have harith : n + 1 + S.length + 1 = (n + S.length + 1) + 1 := by omega
      rw [harith, List.drop_succ_cons] at h3 ⊢
      unfold regexFind
      rw [if_neg (by simp [hf])]
      exact ih (by simpa using h1) (fun k hk => by simpa using h2 (k + 1) (by omega)) h3

theorem drop_marker_decomp {S s : Str} {i : Nat}
    (h : pfx (S ++ [nlChar]) (s.drop i) = true) :
    ∃ t, s.drop i = S ++ nlChar :: t
       ∧ s.drop (i + S.length) = nlChar :: t
       ∧ s.drop (i + S.length + 1) = t := by
  obtain ⟨t, ht⟩ := pfx_exists h
  have e1 : s.drop (i + S.length) = nlChar :: t := by
    rw [← List.drop_drop, ht]
    simp [List.drop_left S (nlChar :: t)]
  refine ⟨t, by simpa using ht, e1, ?_⟩
  rw [← List.drop_drop, e1]
  rfl

theorem endMarker_head (tok : Str) : ∃ e, endMarker tok = '<' :: e := ⟨_, rfl⟩

theorem findSub_cons_shift {pat : Str} {c : Char} {t : Str}
    (hne : pfx pat (c :: t) = false) :
    findSub pat (c :: t) = (findSub pat t).map (· + 1) := by
  rw [show findSub pat (c :: t)
        = if pfx pat (c :: t) = true then some 0 else (findSub pat t).map (· + 1) from rfl,
     if_neg (by simp [hne])]

theorem splitLines_cons_nl (g : Str) : splitLines (nlChar :: g) = [] :: splitLines g := by
  simp [splitLines]

theorem keepLine_nil (S E : Str) : keepLine S E [] = false := rfl

theorem cleanRegion_cons_nl (S E g : Str) :
    cleanRegion S E (nlChar :: g) = cleanRegion S E g := by
  simp [cleanRegion, splitLines_cons_nl, List.filter_cons, keepLine_nil]

theorem orNoOutput_ne_nil (s : Str) : orNoOutput s ≠ [] := by
  unfold orNoOutput
  split
  · decide
  · assumption

/-- C3 counterexample: a captured pane text in which both markers of the
current token occur (the end marker after the first start marker), yet
parley's result is not the cleaned substring strictly between them: the
extraction regex additionally requires a newline right after the start
marker, and in this particular capture no start-marker occurrence is
followed by a newline, so the code returns the raw trimmed capture. -/
theorem c3_counterexample :
    (specParleyResult (startMarker (str "abcd1234")) (endMarker (str "abcd1234"))
        (startMarker (str "abcd1234") ++ str "x" ++ [nlChar] ++ endMarker (str "abcd1234"))
      = some (str "x"))
  ∧ execExtract (startMarker (str "abcd1234")) (endMarker (str "abcd1234"))
        (startMarker (str "abcd1234") ++ str "x" ++ [nlChar] ++ endMarker (str "abcd1234"))
      ≠ str "x" := by
  constructor
  · decide
  · decide

/-- C3 (amended): whenever the first occurrence of the start marker in the
captured text is immediately followed by a newline and the end marker
occurs after that newline, parley's result is exactly the spec recipe of
claim C3: the substring strictly between the first start-marker
occurrence and the first subsequent end-marker occurrence, split into
lines, blank lines and marker-echo lines dropped, joined and trimmed
(empty replaced by the sentinel).  The amendment over the claim as
stated is the newline requirement on the first start-marker occurrence. -/
theorem c3_extraction_amended (tok cap : Str) (i j : Nat)
    (h1 : findSub (startMarker tok) cap = some i)
    (h2 : pfx (startMarker tok ++ [nlChar]) (cap.drop i) = true)
    (h3 : findSub (endMarker tok) (cap.drop (i + (startMarker tok).length + 1)) = some j) :
    specParleyResult (startMarker tok) (endMarker tok) cap
      = some (execExtract (startMarker tok) (endMarker tok) cap) := by
  obtain ⟨t, ht, hdropS, hdropS1⟩ := drop_marker_decomp h2
  obtain ⟨hfirst, hmin⟩ := findSub_spec h1
  have hmin' : ∀ k, k < i → pfx (startMarker tok ++ [nlChar]) (cap.drop k) = false := by
    intro k hk
    cases hp : pfx (startMarker tok ++ [nlChar]) (cap.drop k) with
    | false => rfl
    | true => exact absurd (pfx_mono hp) (by simp [hmin k hk])
  have hregex := regexFind_eq h2 hmin' h3
  rw [hdropS1] at hregex
  obtain ⟨e, he⟩ := endMarker_head tok
  have h3' : findSub (endMarker tok) t = some j := by rw [← hdropS1]; exact h3
  have hnopfx : pfx (endMarker tok) (nlChar :: t) = false := by
    rw [he]
    have hlt : ('<' : Char) ≠ nlChar := by decide
    simp [pfx, hlt]
  have hshift : findSub (endMarker tok) (cap.drop (i + (startMarker tok).length))
      = some (j + 1) := by
    rw [hdropS, findSub_cons_shift hnopfx, h3']
    rfl
  have hspec : specExtractRegion (startMarker tok) (endMarker tok) cap
      = some (nlChar :: t.take j) := by
    have hm : specExtractRegion (startMarker tok) (endMarker tok) cap
        = match findSub (endMarker tok) (cap.drop (i + (startMarker tok).length)) with
          | none => none
          | some j => some ((cap.drop (i + (startMarker tok).length)).take j) := by
      unfold specExtractRegion
      rw [h1]
    rw [hm, hshift]
    show some ((cap.drop (i + (startMarker tok).length)).take (j + 1)) = _
    rw [hdropS, List.take_succ_cons]
  unfold specParleyResult
  rw [hspec]
  simp only [Option.map_some', Option.some.injEq]
  rw [cleanRegion_cons_nl]
  unfold execExtract
  rw [hregex]

/-- Witness for the amended C3 theorem at a concrete capture. -/
theorem c3_extraction_amended_witness :
    specParleyResult (startMarker (str "abcd1234")) (endMarker (str "abcd1234"))
        (startMarker (str "abcd1234") ++ [nlChar] ++ str "out" ++ [nlChar]
          ++ endMarker (str "abcd1234"))
      = some (execExtract (startMarker (str "abcd1234")) (endMarker (str "abcd1234"))
          (startMarker (str "abcd1234") ++ [nlChar] ++ str "out" ++ [nlChar]
            ++ endMarker (str "abcd1234"))) :=
  c3_extraction_amended (str "abcd1234")
    (startMarker (str "abcd1234") ++ [nlChar] ++ str "out" ++ [nlChar]
      ++ endMarker (str "abcd1234"))
    0 4 (by decide) (by decide) (by decide)

/-- C4: parley never fails on missing markers — when the marker-delimited
region is not found in the captured text, the result is the raw trimmed
capture (with the `(no output)` sentinel when that is empty) — and the
result of the extraction is never the empty string, the sentinel standing
in for every empty outcome. -/
theorem c4_fallback_sentinel :
    (∀ tok stdout : Str,
        regexFind (startMarker tok) (endMarker tok) stdout = none →
        execExtract (startMarker tok) (endMarker tok) stdout
          = if trimChars stdout = [] then str "(no output)" else trimChars stdout)
  ∧ (∀ tok stdout : Str, execExtract (startMarker tok) (endMarker tok) stdout ≠ []) := by
  constructor
  · intro tok stdout h
    unfold execExtract
    rw [h]
    rfl
  · intro tok stdout
    unfold execExtract
    cases regexFind (startMarker tok) (endMarker tok) stdout with
    | none => exact orNoOutput_ne_nil _
    | some raw => exact orNoOutput_ne_nil _

/-- Witness for C4 at a concrete capture without markers. -/
theorem c4_fallback_sentinel_witness :
    execExtract (startMarker (str "abcd1234")) (endMarker (str "abcd1234")) (str "  x  ")
      = if trimChars (str "  x  ") = [] then str "(no output)" else trimChars (str "  x  ") :=
  c4_fallback_sentinel.1 (str "abcd1234") (str "  x  ") (by decide)

/-- C8: the parley round-trip property fails on the code.  Against a
deterministic echo-style pane (input lines are echoed back; `echo`
prints its argument) with empty scrollback, `parley(target, "echo hello")`
does not return `"hello"`: the lazy extraction ends at the end-marker
text inside the echoed end-marker command, and the line filter drops
only full marker-echo lines, never the echoed caller command, so the
result is `"echo hello\nhello\necho '"`.  This contradicts the code's
own comment ("Filter out the echoed command and prompts") and the
specification's round-trip property. -/
theorem c8_parley_roundtrip_failure :
    echoPaneCapture (str "abcd1234") [] (str "echo hello")
      = echoCmd (startMarker (str "abcd1234")) ++ [nlChar]
        ++ startMarker (str "abcd1234") ++ [nlChar]
        ++ str "echo hello" ++ [nlChar] ++ str "hello" ++ [nlChar]
        ++ echoCmd (endMarker (str "abcd1234")) ++ [nlChar]
        ++ endMarker (str "abcd1234")
  ∧ execExtract (startMarker (str "abcd1234")) (endMarker (str "abcd1234"))
        (echoPaneCapture (str "abcd1234") [] (str "echo hello"))
      = str "echo hello" ++ [nlChar] ++ str "hello" ++ [nlChar] ++ str "echo '"
  ∧ execExtract (startMarker (str "abcd1234")) (endMarker (str "abcd1234"))
        (echoPaneCapture (str "abcd1234") [] (str "echo hello"))
      ≠ str "hello" := by
  refine ⟨by decide, by decide, by decide⟩

theorem echoCmd_startMarker (tok : Str) :
    echoCmd (startMarker tok) = str "echo '<<<HARBOR_START_" ++ tok ++ str ">>>'" := by
  simp only [echoCmd, startMarker, str, List.append_assoc]
  rfl

theorem echoCmd_endMarker (tok : Str) :
    echoCmd (endMarker tok) = str "echo '<<<HARBOR_END_" ++ tok ++ str ">>>'" := by
  simp only [echoCmd, endMarker, str, List.append_assoc]
  rfl

/-- C2: for every target, command and timeout, parley performs exactly
the ordered interaction sequence of the claim: start-marker echo plus
Enter, 100 ms sleep; the command with every embedded single quote
replaced by an escape sequence, plus Enter, `timeout` ms sleep (default
3000); end-marker echo plus Enter, 200 ms sleep; one capture of the
pane's last 500 lines — and nothing else.  The marker token is the
8-character slice of the fresh `randomUUID()` value. -/
theorem c2_parley_trace (si : SessionInfo) (target command uuid : Str) (timeout : Nat)
    (svc : SessionServiceInfo) (h : lookupSvc si.services target = some svc) :
    (execInPane (.parsed si) target command (mkMarkerId uuid) timeout
      = .ok [ Step.sendKeys (str "echo '<<<HARBOR_START_" ++ mkMarkerId uuid ++ str ">>>'") true,
              Step.sleep 100,
              Step.sendKeys (command.flatMap
                (fun c => if c = '\'' then str "'\\''" else [c])) true,
              Step.sleep timeout,
              Step.sendKeys (str "echo '<<<HARBOR_END_" ++ mkMarkerId uuid ++ str ">>>'") true,
              Step.sleep 200,
              Step.capture 500 ])
  ∧ (8 ≤ uuid.length → (mkMarkerId uuid).length = 8) := by
  constructor
  · simp only [execInPane, getSessionInfo, h]
    unfold execInPaneTrace escapeSingleQuotes
    rw [echoCmd_startMarker, echoCmd_endMarker]
  · intro hlen
    unfold mkMarkerId
    simp [List.length_take]
    omega

/-- Witness for C2 at a concrete session, command and UUID. -/
theorem c2_parley_trace_witness :
    (execInPane
        (.parsed ⟨str "dev", str "harbor-dev", str "t",
          [(str "repl", ⟨1, str "dev:1", some []⟩)]⟩)
        (str "repl") (str "it's") (mkMarkerId (str "0a1b2c3d-4e5f-6071-8293-a4b5c6d7e8f9")) 2000
      = .ok [ Step.sendKeys (str "echo '<<<HARBOR_START_"
                ++ mkMarkerId (str "0a1b2c3d-4e5f-6071-8293-a4b5c6d7e8f9") ++ str ">>>'") true,
              Step.sleep 100,
              Step.sendKeys ((str "it's").flatMap
                (fun c => if c = '\'' then str "'\\''" else [c])) true,
              Step.sleep 2000,
              Step.sendKeys (str "echo '<<<HARBOR_END_"
                ++ mkMarkerId (str "0a1b2c3d-4e5f-6071-8293-a4b5c6d7e8f9") ++ str ">>>'") true,
              Step.sleep 200,
              Step.capture 500 ])
  ∧ (8 ≤ (str "0a1b2c3d-4e5f-6071-8293-a4b5c6d7e8f9").length →
      (mkMarkerId (str "0a1b2c3d-4e5f-6071-8293-a4b5c6d7e8f9")).length = 8) :=
  c2_parley_trace ⟨str "dev", str "harbor-dev", str "t",
      [(str "repl", ⟨1, str "dev:1", some []⟩)]⟩
    (str "repl") (str "it's") (str "0a1b2c3d-4e5f-6071-8293-a4b5c6d7e8f9") 2000
    ⟨1, str "dev:1", some []⟩ (by decide)

/-- C5: registry load treats a missing session file and an unparseable
one identically as absent, and each transport primitive fails with the
no-session error when the registry is absent and with the
unknown-service error when the target is not a key of the services map —
in both cases returning the error without any multiplexer interaction
(the interaction trace exists only in the `Except.ok` branch). -/
theorem c5_registry_errors :
    (getSessionInfo .missing = none ∧ getSessionInfo .unparseable = none)
  ∧ (∀ (file : SessionFile) (target command tok : Str) (timeout lines : Nat),
        getSessionInfo file = none →
          sendToPane file target command = .error noSessionErr
        ∧ capturePane file target lines = .error noSessionErr
        ∧ execInPane file target command tok timeout = .error noSessionErr)
  ∧ (∀ (si : SessionInfo) (target command tok : Str) (timeout lines : Nat),
        lookupSvc si.services target = none →
          sendToPane (.parsed si) target command = .error (unknownServiceErr target)
        ∧ capturePane (.parsed si) target lines = .error (unknownServiceErr target)
        ∧ execInPane (.parsed si) target command tok timeout
            = .error (unknownServiceErr target)) := by
  refine ⟨⟨rfl, rfl⟩, ?_, ?_⟩
  · intro file target command tok timeout lines h
    exact ⟨by simp only [sendToPane, h], by simp only [capturePane, h],
           by simp only [execInPane, h]⟩
  · intro si target command tok timeout lines h
    exact ⟨by simp only [sendToPane, getSessionInfo, h],
           by simp only [capturePane, getSessionInfo, h],
           by simp only [execInPane, getSessionInfo, h]⟩

/-- Witness for C5 with a missing registry and an unknown target. -/
theorem c5_registry_errors_witness :
    (sendToPane .missing (str "repl") (str "ls") = .error noSessionErr
  ∧ capturePane .missing (str "repl") 500 = .error noSessionErr
  ∧ execInPane .missing (str "repl") (str "ls") (str "abcd1234") 3000 = .error noSessionErr)
  ∧ (sendToPane (.parsed exampleSession) (str "ghost") (str "ls")
      = .error (unknownServiceErr (str "ghost"))
  ∧ capturePane (.parsed exampleSession) (str "ghost") 500
      = .error (unknownServiceErr (str "ghost"))
  ∧ execInPane (.parsed exampleSession) (str "ghost") (str "ls") (str "abcd1234") 3000
      = .error (unknownServiceErr (str "ghost"))) :=
  ⟨c5_registry_errors.2.1 .missing (str "repl") (str "ls") (str "abcd1234") 3000 500 rfl,
   c5_registry_errors.2.2 exampleSession (str "ghost") (str "ls") (str "abcd1234") 3000 500
     (by decide)⟩

/-- C1 counterexample: with a registry in which the empty string is a
key of the services map, the caller identity `HARBOR_SERVICE=""` is
present and is a known service whose `canAccess` list does not contain
the target `repl`, so the claim as stated requires Denied — but
`checkAccess` returns Allowed, because JavaScript falsiness makes the
empty caller value take the absent-caller branch. -/
theorem c1_counterexample :
    lookupSvc c1CexSession.services [] = some ⟨1, str "dev:1", some []⟩
  ∧ str "repl" ∉ (⟨1, str "dev:1", some []⟩ : SessionServiceInfo).canAccess.getD []
  ∧ (checkAccess (.parsed c1CexSession) (some []) (str "repl")).allowed = true := by
  refine ⟨by decide, by decide, by decide⟩

/-- C1 (amended): for every loaded registry and every target that is a
key of the services map, `checkAccess` returns Allowed when the caller
identity is absent; Allowed when it is present but not a key of the
services map; and, for a caller identity that is a known service *with a
nonempty name* (an empty `HARBOR_SERVICE` value is treated like an
absent one), Allowed exactly when the target appears in the caller's
`canAccess` list, an absent list counting as empty.  The concrete
scenario of the claim holds as stated. -/
theorem c1_checkAccess_policy :
    (∀ (si : SessionInfo) (target : Str) (tsvc : SessionServiceInfo),
        lookupSvc si.services target = some tsvc →
          ((checkAccess (.parsed si) none target).allowed = true
        ∧ (∀ c : Str, lookupSvc si.services c = none →
              (checkAccess (.parsed si) (some c) target).allowed = true)
        ∧ (∀ (c : Str) (cinfo : SessionServiceInfo), c ≠ [] →
              lookupSvc si.services c = some cinfo →
              ((checkAccess (.parsed si) (some c) target).allowed = true
                ↔ target ∈ cinfo.canAccess.getD []))))
  ∧ ((checkAccess (.parsed exampleSession) (some (str "web")) (str "repl")).allowed = true
   ∧ (checkAccess (.parsed exampleSession) (some (str "repl")) (str "web")).allowed = false
   ∧ (checkAccess (.parsed exampleSession) none (str "repl")).allowed = true) := by
  constructor
  · intro si target tsvc h
    refine ⟨by simp [checkAccess, getSessionInfo, h], ?_, ?_⟩
    · intro c hc
      by_cases hce : c = []
      · subst hce; simp [checkAccess, getSessionInfo, h]
      · simp [checkAccess, getSessionInfo, h, hce, hc]
    · intro c cinfo hce hc
      by_cases hmem : target ∈ cinfo.canAccess.getD []
      · simp [checkAccess, getSessionInfo, h, hce, hc, hmem]
      · simp [checkAccess, getSessionInfo, h, hce, hc, hmem]
  · refine ⟨by decide, by decide, by decide⟩

/-- Witness for C1 at the concrete scenario registry. -/
theorem c1_checkAccess_policy_witness :
    ((checkAccess (.parsed exampleSession) (some (str "ghost")) (str "repl")).allowed = true)
  ∧ ((checkAccess (.parsed exampleSession) (some (str "web")) (str "repl")).allowed = true
      ↔ str "repl" ∈ (⟨2, str "dev:2", some [str "repl"]⟩ : SessionServiceInfo).canAccess.getD []) := by
  have h := c1_checkAccess_policy.1 exampleSession (str "repl")
    ⟨1, str "dev:1", some []⟩ (by decide)
  exact ⟨h.2.1 (str "ghost") (by decide),
         h.2.2 (str "web") ⟨2, str "dev:2", some [str "repl"]⟩ (by decide) (by decide)⟩

theorem lookupSvc_none_keys {l : List (Str × SessionServiceInfo)} {c : Str}
    (h : lookupSvc l c = none) : ∀ p ∈ l, p.1 ≠ c := by
  induction l with
  | nil => simp
  | cons q rest ih =>
    unfold lookupSvc at h
    split at h
    · exact absurd h (by simp)
    · rename_i hq
      intro p hp
      rcases List.mem_cons.mp hp with rfl | hmem
      · exact hq
      · exact ih h p hmem

theorem contextIcon_x {c name : Str} (hce : c ≠ []) (hname : name ≠ c) :
    contextIcon (some c) [] name = str "✗" := by
  simp [contextIcon, hce, hname]

/-- C10 counterexample: at the empty-but-set caller identity
`HARBOR_SERVICE=""` — which is not a key of the example registry — the
context table marks every row `✓` (JavaScript falsiness routes the empty
value through the no-caller branch), not `✗` as the claim states. -/
theorem c10_counterexample :
    lookupSvc exampleSession.services [] = none
  ∧ contextAccessIcons exampleSession (some []) = [str "✓", str "✓"]
  ∧ str "✓" ≠ str "✗" := by
  refine ⟨by decide, by decide, by decide⟩

/-- C10 (amended): when the caller identity environment value is set to
a *nonempty* string that is not a key of the services map, `checkAccess`
returns Allowed for every known target, yet the context renderer marks
every service row `✗` — the rendered indicators disagree with the
enforced decision for such callers.  (An empty-but-set value instead
behaves like an absent caller in both places.) -/
theorem c10_context_icons_amended (si : SessionInfo) (c : Str)
    (hce : c ≠ []) (hun : lookupSvc si.services c = none) :
    contextAccessIcons si (some c) = si.services.map (fun _ => str "✗")
  ∧ (∀ (target : Str) (tsvc : SessionServiceInfo),
        lookupSvc si.services target = some tsvc →
        (checkAccess (.parsed si) (some c) target).allowed = true) := by
  constructor
  · have hkeys := lookupSvc_none_keys hun
    have hmap : ∀ p ∈ si.services, contextIcon (some c)
        (((if c = [] then none else lookupSvc si.services c).bind (·.canAccess)).getD []) p.1
        = (fun _ => str "✗") p := by
      intro p hp
      rw [if_neg hce, hun]
      exact contextIcon_x hce (hkeys p hp)
    exact List.map_congr_left hmap
  · intro target tsvc h
    simp [checkAccess, getSessionInfo, h, hce, hun]

/-- Witness for the amended C10 theorem at the example registry with an
unknown nonempty caller. -/
theorem c10_context_icons_amended_witness :
    contextAccessIcons exampleSession (some (str "ghost")) = [str "✗", str "✗"]
  ∧ (checkAccess (.parsed exampleSession) (some (str "ghost")) (str "repl")).allowed = true := by
  have h := c10_context_icons_amended exampleSession (str "ghost") (by decide) (by decide)
  exact ⟨h.1.trans (by decide), h.2 (str "repl") ⟨1, str "dev:1", some []⟩ (by decide)⟩

theorem dqParse_roundtrip {cmd : Str} (h1 : '\\' ∉ cmd) (h2 : '$' ∉ cmd)
    (h3 : backtickChar ∉ cmd) :
    dqParse (escapeDoubleQuotes cmd) = .literal cmd := by
  induction cmd with
  | nil => rfl
  | cons c rest ih =>
    simp only [List.mem_cons, not_or] at h1 h2 h3
    obtain ⟨hc1, h1r⟩ := h1
    obtain ⟨hc2, h2r⟩ := h2
    obtain ⟨hc3, h3r⟩ := h3
    have ihr := ih h1r h2r h3r
    by_cases hq : c = '"'
    · subst hq
      have he : escapeDoubleQuotes ('"' :: rest) = '\\' :: '"' :: escapeDoubleQuotes rest := rfl
      rw [he]
      show (dqParse (escapeDoubleQuotes rest)).consLit '"' = _
      rw [ihr]
      rfl
    · have hne : escapeDoubleQuotes (c :: rest) = c :: escapeDoubleQuotes rest := by
        simp [escapeDoubleQuotes, hq]
      rw [hne, dqParse.eq_def]
      show (if c = '\\' then
              match escapeDoubleQuotes rest with
              | [] => DQResult.literal ['\\']
              | c2 :: rest2 =>
                if c2 ∈ dqSpecials then (dqParse rest2).consLit c2
                else ((dqParse rest2).consLit c2).consLit '\\'
            else if c = '"' then DQResult.breaksOut
            else if c = '$' then DQResult.hasExpansion
            else if c = backtickChar then DQResult.hasExpansion
            else (dqParse (escapeDoubleQuotes rest)).consLit c) = DQResult.literal (c :: rest)
      rw [if_neg (fun h => hc1 h.symm), if_neg hq, if_neg (fun h => hc2 h.symm),
          if_neg (fun h => hc3 h.symm), ihr]
      rfl

/-- C6 counterexample: the command consisting of a backslash followed by
a double quote.  Its escaped form terminates the double-quoted
`send-keys` argument early — the command text breaks out of the injected
literal, so the injected keystrokes are not the caller's command text. -/
theorem c6_counterexample :
    dqParse (escapeDoubleQuotes (str "\\\"")) = DQResult.breaksOut
  ∧ dqParse (escapeDoubleQuotes (str "\\\"")) ≠ DQResult.literal (str "\\\"") := by
  refine ⟨by decide, by decide⟩

/-- C6 (amended): `send` injects the command as a single keystroke
payload followed by one Enter keypress, reading nothing back (the
interaction trace is exactly one `send-keys` and no capture), and the
double-quote escaping neutralizes embedded double quotes — but only for
commands free of the shell's other double-quote specials: for every
command containing no backslash, no dollar sign and no backtick, the
text delivered by the double-quoted `send-keys` argument is exactly the
caller's command.  Commands containing `$`, a backtick, or a
backslash-quote sequence can still escape the quoting (see the
counterexample). -/
theorem c6_send_escaping_amended :
    (∀ (si : SessionInfo) (target command : Str) (svc : SessionServiceInfo),
        lookupSvc si.services target = some svc →
        sendToPane (.parsed si) target command
          = .ok [Step.sendKeys (escapeDoubleQuotes command) true])
  ∧ (∀ command : Str, '\\' ∉ command → '$' ∉ command → backtickChar ∉ command →
        dqParse (escapeDoubleQuotes command) = DQResult.literal command) := by
  constructor
  · intro si target command svc h
    simp only [sendToPane, getSessionInfo, h]
  · intro command h1 h2 h3
    exact dqParse_roundtrip h1 h2 h3

/-- Witness for the amended C6 theorem on a command with embedded double
quotes. -/
theorem c6_send_escaping_amended_witness :
    sendToPane (.parsed exampleSession) (str "repl") (str "echo \"hi\"")
      = .ok [Step.sendKeys (escapeDoubleQuotes (str "echo \"hi\"")) true]
  ∧ dqParse (escapeDoubleQuotes (str "echo \"hi\"")) = DQResult.literal (str "echo \"hi\"") :=
  ⟨c6_send_escaping_amended.1 exampleSession (str "repl") (str "echo \"hi\"")
     ⟨1, str "dev:1", some []⟩ (by decide),
   c6_send_escaping_amended.2 (str "echo \"hi\"") (by decide) (by decide) (by decide)⟩

/-- C7: `capture` returns at most `n` lines of the pane buffer, as-is (a
suffix of the buffer, nothing stripped); requesting more lines than
exist returns the whole buffer; and the operation's interaction trace is
a single `capture-pane` read — no keystroke injection and no sleeping. -/
theorem c7_capture_props :
    (∀ (buffer : List Str) (n : Nat),
        (tmuxCaptureLines buffer n).length ≤ n
      ∧ tmuxCaptureLines buffer n <:+ buffer
      ∧ (buffer.length ≤ n → tmuxCaptureLines buffer n = buffer))
  ∧ (∀ (si : SessionInfo) (target : Str) (svc : SessionServiceInfo) (n : Nat),
        lookupSvc si.services target = some svc →
        capturePane (.parsed si) target n = .ok [Step.capture n]) := by
  constructor
  · intro buffer n
    refine ⟨?_, ?_, ?_⟩
    · simp only [tmuxCaptureLines, List.length_drop]
      omega
    · exact List.drop_suffix _ _
    · intro hle
      simp [tmuxCaptureLines, Nat.sub_eq_zero_of_le hle]
  · intro si target svc n h
    simp only [capturePane, getSessionInfo, h]

/-- Witness for C7 on a concrete two-line buffer. -/
theorem c7_capture_props_witness :
    ((tmuxCaptureLines [str "a", str "b"] 1).length ≤ 1
  ∧ tmuxCaptureLines [str "a", str "b"] 1 <:+ [str "a", str "b"]
  ∧ tmuxCaptureLines [str "a", str "b"] 5 = [str "a", str "b"])
  ∧ capturePane (.parsed exampleSession) (str "repl") 500 = .ok [Step.capture 500] := by
  have h1 := c7_capture_props.1 [str "a", str "b"] 1
  have h5 := c7_capture_props.1 [str "a", str "b"] 5
  exact ⟨⟨h1.1, h1.2.1, h5.2.2 (by decide)⟩,
         c7_capture_props.2 exampleSession (str "repl") ⟨1, str "dev:1", some []⟩ 500 (by decide)⟩

theorem firstSome_eq_none {f : α → Option Str} {l : List α}
    (h : firstSome f l = none) : ∀ a ∈ l, f a = none := by
  induction l with
  | nil => simp
  | cons b rest ih =>
    unfold firstSome at h
    intro a ha
    rcases List.mem_cons.mp ha with rfl | hmem
    · cases hf : f a with
      | none => rfl
      | some e => rw [hf] at h; exact absurd h (by simp)
    · cases hf : f b with
      | none => rw [hf] at h; exact ih h a hmem
      | some e => rw [hf] at h; exact absurd h (by simp)

theorem validateCanAccessList_none {names : List Str} {sname : Str} {ca : List Str}
    (h : validateCanAccessList names sname ca = none) :
    ∀ t ∈ ca, t ∈ names ∧ t ≠ sname := by
  induction ca with
  | nil => simp
  | cons t rest ih =>
    unfold validateCanAccessList at h
    intro u hu
    by_cases hmem : t ∈ names
    · rw [if_neg (by simpa using hmem)] at h
      by_cases hself : t = sname
      · rw [if_pos hself] at h; exact absurd h (by simp)
      · rw [if_neg hself] at h
        rcases List.mem_cons.mp hu with rfl | humem
        · exact ⟨hmem, hself⟩
        · exact ih h u humem
    · rw [if_pos (by simpa using hmem)] at h
      exact absurd h (by simp)

theorem validateService_none {names : List Str} {s : DevService}
    (h : validateService names s = none) :
    ∀ t ∈ s.canAccess.getD [], t ∈ names ∧ t ≠ s.name := by
  unfold validateService at h
  by_cases hn : s.name = []
  · rw [if_pos hn] at h; exact absurd h (by simp)
  · rw [if_neg hn] at h
    by_cases hp : s.path = []
    · rw [if_pos hp] at h; exact absurd h (by simp)
    · rw [if_neg hp] at h
      cases hca : s.canAccess with
      | none => simp [hca]
      | some ca =>
        rw [hca] at h
        simpa [hca] using validateCanAccessList_none h

theorem validateConfig_services_none {config : Config}
    (h : validateConfig config = none) :
    firstSome (validateService (config.services.map (·.name))) config.services = none := by
  simp only [validateConfig] at h
  cases hf : firstSome (validateService (config.services.map (·.name))) config.services with
  | none => rfl
  | some e => rw [hf] at h; simp at h

/-- C9: a configuration accepted by `validateConfig` has `canAccess`
lists that reference only configured service names and never the owning
service itself; `validateConfig` returns a non-null error whenever this
is violated; and hence every configuration returned by
`readHarborConfig` (which throws on validation errors) satisfies the
invariant. -/
theorem c9_canAccess_invariant :
    (∀ config : Config, validateConfig config = none →
        ∀ s ∈ config.services, ∀ t ∈ s.canAccess.getD [],
          t ∈ config.services.map (·.name) ∧ t ≠ s.name)
  ∧ (∀ (config : Config) (s : DevService) (t : Str),
        s ∈ config.services → t ∈ s.canAccess.getD [] →
        (t ∉ config.services.map (·.name) ∨ t = s.name) →
        validateConfig config ≠ none)
  ∧ (∀ (hj ph : Option Config) (c : Config), readHarborConfig hj ph = .ok c →
        ∀ s ∈ c.services, ∀ t ∈ s.canAccess.getD [],
          t ∈ c.services.map (·.name) ∧ t ≠ s.name) := by
  have main : ∀ config : Config, validateConfig config = none →
      ∀ s ∈ config.services, ∀ t ∈ s.canAccess.getD [],
        t ∈ config.services.map (·.name) ∧ t ≠ s.name := by
    intro config h s hs t ht
    exact validateService_none
      (firstSome_eq_none (validateConfig_services_none h) s hs) t ht
  refine ⟨main, ?_, ?_⟩
  · intro config s t hs ht hbad h
    rcases hbad with hnot | hself
    · exact hnot (main config h s hs t ht).1
    · exact (main config h s hs t ht).2 hself
  · intro hj ph c hok
    cases hj with
    | some c0 =>
      cases hv : validateConfig c0 with
      | some e => simp [readHarborConfig, hv] at hok
      | none =>
        have : c0 = c := by simpa [readHarborConfig, hv] using hok
        exact this ▸ main c0 hv
    | none =>
      cases ph with
      | some c0 =>
        cases hv : validateConfig c0 with
        | some e => simp [readHarborConfig, hv] at hok
        | none =>
          have : c0 = c := by simpa [readHarborConfig, hv] using hok
          exact this ▸ main c0 hv
      | none => simp [readHarborConfig] at hok

/-- Witness for C9 on the accepted example configuration. -/
theorem c9_canAccess_invariant_witness :
    (str "repl" ∈ exampleConfig.services.map (·.name)
      ∧ str "repl" ≠ (⟨str "web", str "./web", some [str "repl"]⟩ : DevService).name)
  ∧ (str "repl" ∈ exampleConfig.services.map (·.name)
      ∧ str "repl" ≠ (⟨str "web", str "./web", some [str "repl"]⟩ : DevService).name) :=
  ⟨c9_canAccess_invariant.1 exampleConfig (by decide)
     ⟨str "web", str "./web", some [str "repl"]⟩ (by decide) (str "repl") (by decide),
   c9_canAccess_invariant.2.2 (some exampleConfig) none exampleConfig rfl
     ⟨str "web", str "./web", some [str "repl"]⟩ (by decide) (str "repl") (by decide)⟩
